import Mathlib

/-!
Verification of the chrome-still-capture repository: a shallow embedding of
the capture-and-inline pipeline (extension/background.js) and of the snapshot
store worker, together with theorems settling the frozen claims about them.

Browser and platform primitives (the network, the gzip codec, UTF-8
encoding, URL resolution, date formatting) are passed in as explicit
parameters; everything the repository itself computes is embedded directly.
-/

namespace StillCapture

/-- The double-quote character, built numerically so string literals in this
file stay free of quote escapes. -/
def dq : String := String.singleton (Char.ofNat 34)

/-- The single-quote character. -/
def sq : String := String.singleton (Char.ofNat 39)

/-- JavaScript `a || b` for string-valued `a`: `undefined`/`null` and the
empty string are falsy and select the default. -/
def jsOr (a : Option String) (b : String) : String :=
  match a with
  | some s => if s = "" then b else s
  | none => b

/-- JavaScript `String.prototype.startsWith`. -/
def jsStartsWith (s pre : String) : Bool := pre.data.isPrefixOf s.data

/-- Whether `pat` occurs as a contiguous substring of the character list. -/
def occursIn (pat : List Char) : List Char → Bool
  | [] => pat.isEmpty
  | c :: rest => pat.isPrefixOf (c :: rest) || occursIn pat rest

/-- Leftmost, non-overlapping replacement of every occurrence of `pat` by
`rep`, as performed by JavaScript `s.split(pat).join(rep)` for a non-empty
`pat`. The fuel argument (instantiated with the string length, which bounds
the number of steps) keeps the recursion structural. -/
def replaceAuxF (pat rep : List Char) : Nat → List Char → List Char
  | _, [] => []
  | 0, l => l
  | fuel + 1, c :: rest =>
    if pat.isPrefixOf (c :: rest) then
      rep ++ replaceAuxF pat rep fuel (rest.drop (pat.length - 1))
    else
      c :: replaceAuxF pat rep fuel rest

/-- String-level wrapper for `replaceAuxF`: `s.split(pat).join(rep)`. -/
def replaceStr (s pat rep : String) : String :=
  String.mk (replaceAuxF pat.data rep.data s.data.length s.data)

/-! Transport codec (background.js `compressString`, worker `decompressHtml`).
The gzip stream and the UTF-8 text codec are platform black boxes and appear
as parameters; the byte-to-binary-string chunking and the base64 transport
encoding (`btoa`/`atob`) are embedded concretely. -/

/-- The base64 alphabet used by `btoa`. -/
def b64chars : List Char :=
  ("ABCDEFGHIJKLMNOPQRSTUVWXYZabcdefghijklmnopqrstuvwxyz0123456789+/").data

/-- Character for a six-bit value. -/
def b64char (n : Nat) : Char := b64chars.getD n ('A')

/-- Inverse alphabet lookup; `none` for characters outside the alphabet. -/
def b64index (c : Char) : Option Nat :=
  let i := b64chars.indexOf c
  if i < 64 then some i else none

/-- `btoa` on a list of byte values: standard base64 with `=` padding. -/
def b64encodeGroups : List Nat → List Char
  | b0 :: b1 :: b2 :: rest =>
    b64char (b0 / 4) :: b64char (b0 % 4 * 16 + b1 / 16) ::
      b64char (b1 % 16 * 4 + b2 / 64) :: b64char (b2 % 64) :: b64encodeGroups rest
  | [b0, b1] => [b64char (b0 / 4), b64char (b0 % 4 * 16 + b1 / 16), b64char (b1 % 16 * 4), '=']
  | [b0] => [b64char (b0 / 4), b64char (b0 % 4 * 16), '=', '=']
  | [] => []

/-- `btoa` producing a string. -/
def b64encode (l : List Nat) : String := String.mk (b64encodeGroups l)

/-- `atob` on the character list: decodes padded base64, `none` on input that
is not valid padded base64 (where `atob` throws). -/
def atobChars : List Char → Option (List Nat)
  | [] => some []
  | c0 :: c1 :: c2 :: c3 :: rest =>
    match b64index c0, b64index c1 with
    | some s0, some s1 =>
      if c2 = '=' ∧ c3 = '=' ∧ rest = [] then some [s0 * 4 + s1 / 16]
      else
        match b64index c2 with
        | some s2 =>
          if c3 = '=' ∧ rest = [] then some [s0 * 4 + s1 / 16, s1 % 16 * 16 + s2 / 4]
          else
            match b64index c3 with
            | some s3 =>
              (atobChars rest).map
                (fun bs => (s0 * 4 + s1 / 16) :: (s1 % 16 * 16 + s2 / 4) :: (s2 % 4 * 64 + s3) :: bs)
            | none => none
        | none => none
    | _, _ => none
  | _ => none

/-- `atob` on a string. -/
def atob (s : String) : Option (List Nat) := atobChars s.data

/-- The chunked binary-string construction of `compressString`: the byte
array is converted to a binary string 32768 bytes at a time
(`String.fromCharCode.apply(null, chunk)` concatenated), which is the
identity on the code sequence. -/
def chunkConcat (l : List Nat) : List Nat :=
  if hl : l = [] then [] else l.take 32768 ++ chunkConcat (l.drop 32768)
termination_by l.length
decreasing_by
  simp only [List.length_drop]
  have := List.length_pos.mpr hl
  omega

/-- background.js `compressString` (lines 18-52): UTF-8 encode (`textEncode`,
platform), gzip (`gzip`, platform; the stream-chunk reassembly of lines 27-42
is absorbed into its output), then chunked binary-string construction and
`btoa`. -/
def compressString (textEncode : String → List Nat) (gzip : List Nat → List Nat)
    (str : String) : String :=
  let data := textEncode str
  let compressedData := gzip data
  b64encode (chunkConcat compressedData)

/-- Worker `decompressHtml` (part_000 lines 204-238): `atob` to bytes (the
`charCodeAt` loop is the identity on codes), gunzip, UTF-8 decode. `none`
models the exception `atob` raises on invalid base64. -/
def decompressHtml (gunzip : List Nat → List Nat) (textDecode : List Nat → String)
    (base64Data : String) : Option String :=
  (atob base64Data).map (fun bytes => textDecode (gunzip bytes))

/-! Style resolver: `processCssUrls` (background.js lines 152-181) and its
regex `/url\(\s*['"]?([^'")]+?)['"]?\s*\)/g`, embedded as an exact matcher
over character lists. -/

/-- JavaScript `\s` (the ECMAScript WhiteSpace and LineTerminator sets). -/
def isJsWs (c : Char) : Bool :=
  decide (c.toNat = 32) || decide (c.toNat = 9) || decide (c.toNat = 10) ||
  decide (c.toNat = 13) || decide (c.toNat = 11) || decide (c.toNat = 12) ||
  decide (c.toNat = 160) || decide (c.toNat = 5760) ||
  (decide (8192 ≤ c.toNat) && decide (c.toNat ≤ 8202)) ||
  decide (c.toNat = 8232) || decide (c.toNat = 8233) || decide (c.toNat = 8239) ||
  decide (c.toNat = 8287) || decide (c.toNat = 12288) || decide (c.toNat = 65279)

/-- A quote character, the class `['"]`. -/
def isQuoteChar (c : Char) : Bool := c == Char.ofNat 39 || c == Char.ofNat 34

/-- The capture class `[^'")]`. -/
def inUrlClass (c : Char) : Bool := !(c == Char.ofNat 39 || c == Char.ofNat 34 || c == ')')

/-- The regex tail `['"]?\s*\)` at the current position; returns the input
after the closing parenthesis. (When the head is a quote the optional quote
must consume it: backtracking it to empty leads to `\s*\)` starting on a
quote character, which always fails.) -/
def tailMatch (l : List Char) : Option (List Char) :=
  let l₁ := match l with
    | c :: rest => if isQuoteChar c then rest else l
    | [] => l
  match l₁.dropWhile isJsWs with
  | ')' :: r => some r
  | _ => none

/-- The lazy group `([^'")]+?)` followed by `tailMatch`: the shortest
non-empty capture, all characters in the class, after which the tail
matches. Returns the capture and the remainder after the full match. -/
def lazyCapture (acc : List Char) : List Char → Option (List Char × List Char)
  | c :: rest =>
    if inUrlClass c then
      match tailMatch rest with
      | some r => some (acc ++ [c], r)
      | none => lazyCapture (acc ++ [c]) rest
    else none
  | [] => none

/-- One attempt of `\s*['"]?(...)...` with the greedy `\s*` consuming exactly
`w` whitespace characters. -/
def urlAttempt (l : List Char) (w : Nat) : Option (List Char × List Char) :=
  let l₁ := l.drop w
  let l₂ := match l₁ with
    | c :: rest => if isQuoteChar c then rest else l₁
    | [] => l₁
  lazyCapture [] l₂

/-- Backtracking of the greedy `\s*`: widths `w, w-1, …, 0` in that order. -/
def wsBacktrack (l : List Char) : Nat → Option (List Char × List Char)
  | 0 => urlAttempt l 0
  | w + 1 =>
    match urlAttempt l (w + 1) with
    | some res => some res
    | none => wsBacktrack l w

/-- Full regex body after the literal `url(`: maximal whitespace width first,
then backtrack. -/
def matchUrlAt (l : List Char) : Option (List Char × List Char) :=
  wsBacktrack l (l.takeWhile isJsWs).length

/-- `cssText.matchAll(urlRegex)` returning the captured URLs in order: scan
left to right, at a literal `url(` try the rest of the regex and continue
after the match, otherwise advance one character. Each step consumes at
least one character, so fuel equal to the input length is never exhausted. -/
def cssMatchAllF : Nat → List Char → List String
  | 0, _ => []
  | _ + 1, [] => []
  | fuel + 1, 'u' :: 'r' :: 'l' :: '(' :: rest =>
    match matchUrlAt rest with
    | some (cap, rest₂) => String.mk cap :: cssMatchAllF fuel rest₂
    | none => cssMatchAllF fuel ('r' :: 'l' :: '(' :: rest)
  | fuel + 1, _ :: rest => cssMatchAllF fuel rest

/-- All regex captures of the style text. -/
def cssMatchAll (l : List Char) : List String := cssMatchAllF l.length l

/-- `[...new Set(xs)]`: deduplication keeping first occurrences in order. -/
def jsSetDedup (l : List String) : List String :=
  l.foldl (fun acc u => if acc.contains u then acc else acc ++ [u]) []

/-- The deduplicated captured URLs that are neither inline data nor
fragment-only (background.js lines 159-161). -/
def cssUniqueUrls (cssText : String) : List String :=
  jsSetDedup ((cssMatchAll cssText.data).filter
    (fun u => !(jsStartsWith u ("data:")) && !(jsStartsWith u ("#"))))

/-- background.js `processCssUrls` (lines 152-181). `fetchFn` is the
surrounding `fetchAsDataUrl` closure: `fetchFn url baseUrl` is `some` of the
inline data URL on success and `none` on failure. URLs that resolved are
substituted in each of the three quoting styles, always emitting the
double-quoted form. The concurrent fetch fan-out is modelled sequentially:
the substitution map holds the successful URLs in deduplicated source
order, whereas the source's map insertion order is the promise resolution
order (the theorems below do not depend on that order). -/
def processCssUrls (cssText baseUrl : String) (fetchFn : String → String → Option String) : String :=
  let matchList := cssMatchAll cssText.data
  if matchList.isEmpty then cssText
  else
    let uniqueUrls := cssUniqueUrls cssText
    let urlMap := uniqueUrls.filterMap (fun u => (fetchFn u baseUrl).map (fun d => (u, d)))
    urlMap.foldl (fun result p =>
      let r₁ := replaceStr result ("url(" ++ dq ++ p.1 ++ dq ++ ")") ("url(" ++ dq ++ p.2 ++ dq ++ ")")
      let r₂ := replaceStr r₁ ("url(" ++ sq ++ p.1 ++ sq ++ ")") ("url(" ++ dq ++ p.2 ++ dq ++ ")")
      replaceStr r₂ ("url(" ++ p.1 ++ ")") ("url(" ++ dq ++ p.2 ++ dq ++ ")")) cssText

/-! Resource fetcher: `fetchAsDataUrl` (background.js lines 103-149). -/

/-- Outcome of the platform `fetch` call: it either throws (network error,
CORS rejection, or the 10-second timeout abort) or yields a response with a
success flag, a blob of some size, and the result of reading that blob as a
data URL with `FileReader` (`none` when the reader errors, in which case the
promise resolves `null`). -/
inductive FetchOutcome where
  | threw
  | resp (ok : Bool) (blobSize : Nat) (blobDataUrl : Option String)
deriving DecidableEq

/-- background.js `fetchAsDataUrl`. `resolveURL url base` models
`new URL(url, base).href` (`none` when the constructor throws on a malformed
URL); `net` models the guarded fetch; `locationHref` is `location.href`. -/
def fetchAsDataUrl (resolveURL : String → String → Option String) (net : String → FetchOutcome)
    (locationHref url : String) (baseUrl : Option String) : Option String :=
  match resolveURL url (jsOr baseUrl locationHref) with
  | none => none
  | some absoluteUrl =>
    if jsStartsWith absoluteUrl ("data:") then some absoluteUrl
    else
      match net absoluteUrl with
      | .threw => none
      | .resp ok blobSize blobDataUrl =>
        if !ok then none
        else if blobSize == 0 then none
        else blobDataUrl

/-! Style-sheet recursion: `processStyleSheet` (background.js lines 188-220).
Sheets live in an arbitrary graph, indexed by number, so cyclic `@import`
structures are expressible. -/

/-- One entry of `sheet.cssRules`: an `@import` rule carries the index of its
target sheet when `rule.styleSheet` is non-null; every rule carries its
`cssText`. -/
structure CssRuleData where
  isImport : Bool
  styleSheet : Option Nat
  cssText : String

/-- One style sheet: its `href` (`none` for inline sheets) and its rules
(`none` models `sheet.cssRules` throwing under cross-origin restrictions). -/
structure SheetData where
  href : Option String
  cssRules : Option (List CssRuleData)

/-- The ambient context of `getAllStylesheetCSS`: the sheet graph,
`location.href`, the `fetchAsDataUrl` closure used by `processCssUrls`, and
the direct `fetch(sheet.href)` fallback (`some` of `response.text()` when the
response is ok, otherwise `none`). -/
structure StyleEnv where
  sheets : Nat → SheetData
  locationHref : String
  fetchAsDataUrl : String → String → Option String
  fetchText : String → Option String

/-- The rule loop of `processStyleSheet`: `@import` rules with a live target
sheet recurse (through `recurse`), every other rule appends its `cssText`
and a newline. -/
def rulesTextF (recurse : Nat → String) (rules : List CssRuleData) : String :=
  rules.foldl (fun acc r =>
    acc ++ (if r.isImport then
              match r.styleSheet with
              | some sid₂ => recurse sid₂
              | none => r.cssText ++ "\n"
            else r.cssText ++ "\n")) ""

/-- `processStyleSheet` with fuel `6 - depth`: fuel `0` is the
`depth > 5` early return, and each recursion into an import decrements the
fuel as the source increments the depth. -/
def processStyleSheetF (env : StyleEnv) : Nat → Nat → String
  | 0, _ => ""
  | fuel + 1, sid =>
    let sheet := env.sheets sid
    let baseUrl := jsOr sheet.href env.locationHref
    match sheet.cssRules with
    | some rules =>
      processCssUrls (rulesTextF (fun sid₂ => processStyleSheetF env fuel sid₂) rules)
        baseUrl env.fetchAsDataUrl
    | none =>
      match sheet.href with
      | some href =>
        if href = "" then ""
        else
          match env.fetchText href with
          | some txt => processCssUrls txt href env.fetchAsDataUrl
          | none => ""
      | none => ""

/-- background.js `processStyleSheet(sheet, depth)`: total on every sheet
graph, including cyclic ones, by the depth bound. -/
def processStyleSheet (env : StyleEnv) (sid depth : Nat) : String :=
  processStyleSheetF env (6 - depth) sid

/-! Document sanitizer: `removeScripts` (background.js lines 362-371). -/

/-- A document element: tag name, attributes (name, value), children. -/
inductive Element where
  | mk (tag : String) (attrs : List (String × String)) (children : List Element)

/-- An attribute removed by the sanitizer loop: event-handler names
(`on` prefix) and `href` values in the executable scheme. -/
def isDangerousAttr (name value : String) : Bool :=
  jsStartsWith name ("on") || (name == "href" && jsStartsWith value ("javascript:"))

mutual

/-- First sanitizer pass, `querySelectorAll('script, noscript').remove()`:
drops every script and noscript element, recursively. -/
def removeScriptElements : Element → Option Element
  | .mk tag attrs children =>
    if tag = "script" ∨ tag = "noscript" then none
    else some (.mk tag attrs (removeScriptElementsList children))

/-- `removeScriptElements` over a child list. -/
def removeScriptElementsList : List Element → List Element
  | [] => []
  | e :: es =>
    match removeScriptElements e with
    | some e₂ => e₂ :: removeScriptElementsList es
    | none => removeScriptElementsList es

end

mutual

/-- Second sanitizer pass, the attribute loop over `querySelectorAll('*')`:
removes every dangerous attribute from every element. -/
def stripDangerousAttrs : Element → Element
  | .mk tag attrs children =>
    .mk tag (attrs.filter (fun a => !(isDangerousAttr a.1 a.2))) (stripDangerousAttrsList children)

/-- `stripDangerousAttrs` over a child list. -/
def stripDangerousAttrsList : List Element → List Element
  | [] => []
  | e :: es => stripDangerousAttrs e :: stripDangerousAttrsList es

end

/-- background.js `removeScripts(doc)`: both passes in source order. `none`
only when the root itself is a script element. -/
def removeScripts (doc : Element) : Option Element :=
  (removeScriptElements doc).map stripDangerousAttrs

mutual

/-- No script or noscript element anywhere in the tree. -/
def noScriptElements : Element → Bool
  | .mk tag _ children => !(tag == "script" || tag == "noscript") && noScriptElementsList children

/-- `noScriptElements` over a child list. -/
def noScriptElementsList : List Element → Bool
  | [] => true
  | e :: es => noScriptElements e && noScriptElementsList es

end

mutual

/-- No dangerous attribute anywhere in the tree. -/
def noDangerousAttrs : Element → Bool
  | .mk _ attrs children =>
    attrs.all (fun a => !(isDangerousAttr a.1 a.2)) && noDangerousAttrsList children

/-- `noDangerousAttrs` over a child list. -/
def noDangerousAttrsList : List Element → Bool
  | [] => true
  | e :: es => noDangerousAttrs e && noDangerousAttrsList es

end

/-! Capture orchestrator result: the main capture logic of
`capturePageSnapshot` (background.js lines 379-426). -/

/-- The structured result of one capture invocation. -/
structure CaptureResult where
  success : Bool
  html : Option String
  title : Option String
  sourceUrl : Option String
  error : Option String
deriving DecidableEq

/-- Outcome of the pipeline body inside the top-level `try`: either the
serialized clone (`tempDoc.documentElement.outerHTML`) with the page title
and `location.href`, or a caught exception whose `message` may be absent or
empty. -/
inductive PipelineOutcome where
  | ok (docHtml title sourceUrl : String)
  | err (message : Option String)

/-- The result construction of `capturePageSnapshot`: on success the html is
the serialized clone prefixed by the doctype line; on a caught error the
result carries `error.message || 'Capture failed'` and no html. -/
def capturePageSnapshot : PipelineOutcome → CaptureResult
  | .ok docHtml title sourceUrl =>
    { success := true
      html := some ("<!DOCTYPE html>\n" ++ docHtml)
      title := some title
      sourceUrl := some sourceUrl
      error := none }
  | .err message =>
    { success := false
      html := none
      title := none
      sourceUrl := none
      error := some (jsOr message ("Capture failed")) }

/-! Snapshot store worker (src/unnamed/part_000). The file holds two
variants: the plain worker (10 MB ceiling, html size check) and the
compressed-transport worker (50 MB ceiling, optional gzip payload). The
serve path and `parseExpiration` are identical in both. -/

/-- Server-side metadata attached to a stored document. `expiresAt` is the
ISO string produced at upload time, `none` for "never expires". -/
structure SnapshotMetadata where
  title : String
  sourceUrl : String
  createdAt : String
  expiresAt : Option String
deriving DecidableEq

/-- One stored object: the document body and its custom metadata. -/
structure StoredObject where
  body : String
  customMetadata : Option SnapshotMetadata
deriving DecidableEq

/-- The `env.SNAPSHOTS` binding as a map from id to stored object. -/
def SnapshotStore : Type := String → Option StoredObject

/-- A served HTTP response (status and body; the content-type and cache
headers of the 200 path are fixed strings and not tracked). -/
structure ServeResponse where
  status : Nat
  body : String
deriving DecidableEq

/-- `new Date(s) < new Date()`: false when the stored string does not parse
(an invalid date compares as NaN). `parseDate` models date parsing. -/
def dateLt (parseDate : String → Option Int) (s : String) (now : Int) : Bool :=
  match parseDate s with
  | some t => t < now
  | none => false

/-- Worker `handleServe` (part_000 lines 129-162 and 334-367): 404 when the
id is absent; when the entry carries a (truthy) expiration that has passed,
delete it and answer 410; otherwise 200 with the stored body. -/
def handleServe (parseDate : String → Option Int) (now : Int) (store : SnapshotStore)
    (id : String) : ServeResponse × SnapshotStore :=
  match store id with
  | none => ({ status := 404, body := "Snapshot not found" }, store)
  | some object =>
    match object.customMetadata with
    | some metadata =>
      match metadata.expiresAt with
      | some s =>
        if s = "" then ({ status := 200, body := object.body }, store)
        else if dateLt parseDate s now then
          ({ status := 410, body := "Snapshot has expired" }, fun k => if k = id then none else store k)
        else ({ status := 200, body := object.body }, store)
      | none => ({ status := 200, body := object.body }, store)
    | none => ({ status := 200, body := object.body }, store)

/-- Digit-list value, as `parseInt(s, 10)` computes it on a digit string. -/
def digitsToNat (l : List Char) : Nat := l.foldl (fun n c => n * 10 + (c.toNat - 48)) 0

/-- The anchored match `expiresIn.match(/^(\d+)([dhm])$/)`: the whole string
is a non-empty digit run followed by exactly one unit character. -/
def expMatch (l : List Char) : Option (Nat × Char) :=
  let digits := l.takeWhile Char.isDigit
  let rest := l.dropWhile Char.isDigit
  if digits.isEmpty then none
  else
    match rest with
    | [u] => if u == 'd' || u == 'h' || u == 'm' then some (digitsToNat digits, u) else none
    | _ => none

/-- The `multipliers` table: milliseconds per unit. -/
def multipliers (unit : Char) : Nat :=
  if unit = 'm' then 60 * 1000
  else if unit = 'h' then 60 * 60 * 1000
  else 24 * 60 * 60 * 1000

/-- The ECMAScript time-value range: `new Date(t)` is a valid date exactly
when `|t| ≤ 8.64e15` milliseconds (±100,000,000 days from the epoch);
beyond it the date is invalid and `toISOString()` throws a RangeError. -/
def MAX_TIME_VALUE : Nat := 8640000000000000

/-- Worker `parseExpiration` (part_000 lines 12-32 and 174-194). `nowMs` is
`Date.now()` and `toISO` renders a valid time value as
`new Date(t).toISOString()` does. Falsy or `"never"` input, and any input
failing the grammar, yield `ok null`. On a grammar match the computed time
value is rendered when it lies within the ECMAScript date range; otherwise
`toISOString()` throws a RangeError, modelled as `error` (the surrounding
upload handler's catch turns it into a 500). -/
def parseExpiration (nowMs : Int) (toISO : Int → String) (expiresIn : Option String) :
    Except Unit (Option String) :=
  match expiresIn with
  | none => .ok none
  | some s =>
    if s = "" ∨ s = "never" then .ok none
    else
      match expMatch s.data with
      | none => .ok none
      | some (value, unit) =>
        let t := nowMs + (value : Int) * (multipliers unit : Int)
        if t.natAbs ≤ MAX_TIME_VALUE then .ok (some (toISO t)) else .error ()

/-- UTF-8 byte length of one character, as `TextEncoder` emits it. -/
def utf8CharLen (c : Char) : Nat :=
  if c.toNat < 128 then 1
  else if c.toNat < 2048 then 2
  else if c.toNat < 65536 then 3
  else 4

/-- `new TextEncoder().encode(s).length`. -/
def utf8Len (s : String) : Nat := (s.data.map utf8CharLen).sum

/-- The parsed JSON upload body `{ html, compressed, title, sourceUrl,
expiresIn }`; absent fields are `none`, and the plain worker ignores
`compressed`. -/
structure UploadBody where
  html : Option String
  compressed : Bool
  title : Option String
  sourceUrl : Option String
  expiresIn : Option String

/-- An upload request: the parsed Content-Length header (absent when the
header is missing) and the JSON body (`none` when `request.json()` throws). -/
structure UploadRequest where
  contentLength : Option Nat
  body : Option UploadBody

/-- The JSON upload response; `id` and `expiresAt` are populated on the 200
path, `error` on every other path. The `url` field of the 200 body is the
request origin with path `/id` and is not tracked. -/
structure UploadResponse where
  status : Nat
  error : Option String
  id : Option String
  expiresAt : Option String
deriving DecidableEq

namespace PlainWorker

/-- The plain worker's ceiling (part_000 line 1): 10 MB. -/
def MAX_SIZE : Nat := 10 * 1024 * 1024

/-- Plain worker `handleUpload` (part_000 lines 63-105): reject a declared
size over the ceiling (413), a missing or empty html field (400), or an html
field whose encoded size is over the ceiling (413); otherwise store the html
under a fresh id with fully populated metadata and answer 200. A body that
fails to parse, or a `parseExpiration` RangeError, is the catch-all 500. -/
def handleUpload (nowMs : Int) (toISO : Int → String) (id : String) (store : SnapshotStore)
    (req : UploadRequest) : UploadResponse × SnapshotStore :=
  if (match req.contentLength with | some n => decide (n > MAX_SIZE) | none => false) then
    ({ status := 413, error := some ("Content too large"), id := none, expiresAt := none }, store)
  else
    match req.body with
    | none => ({ status := 500, error := some ("Upload failed"), id := none, expiresAt := none }, store)
    | some body =>
      match body.html with
      | none => ({ status := 400, error := some ("Missing html content"), id := none, expiresAt := none }, store)
      | some html =>
        if html = "" then
          ({ status := 400, error := some ("Missing html content"), id := none, expiresAt := none }, store)
        else if utf8Len html > MAX_SIZE then
          ({ status := 413, error := some ("Content too large"), id := none, expiresAt := none }, store)
        else
          match parseExpiration nowMs toISO body.expiresIn with
          | .error _ =>
            ({ status := 500, error := some ("Upload failed"), id := none, expiresAt := none }, store)
          | .ok expiresAt =>
            let metadata : SnapshotMetadata :=
              { title := jsOr body.title ("Untitled")
                sourceUrl := jsOr body.sourceUrl ""
                createdAt := toISO nowMs
                expiresAt := expiresAt }
            ({ status := 200, error := none, id := some id, expiresAt := expiresAt },
             fun k => if k = id then some { body := html, customMetadata := some metadata } else store k)

end PlainWorker

namespace CompressedWorker

/-- The compressed-transport worker's ceiling (part_000 line 163): 50 MB. -/
def MAX_SIZE : Nat := 50 * 1024 * 1024

/-- Compressed-transport worker `handleUpload` (part_000 lines 260-310):
reject a declared size over the ceiling (413) and a missing or empty html
field (400); when `compressed` is set, decompress (`dec`, the
`decompressHtml` call; 400 on failure); then store with fully populated
metadata and answer 200. No check of the actual body size is performed. A
body that fails to parse, or a `parseExpiration` RangeError, is the
catch-all 500. -/
def handleUpload (nowMs : Int) (toISO : Int → String) (dec : String → Option String)
    (id : String) (store : SnapshotStore) (req : UploadRequest) : UploadResponse × SnapshotStore :=
  if (match req.contentLength with | some n => decide (n > MAX_SIZE) | none => false) then
    ({ status := 413, error := some ("Content too large"), id := none, expiresAt := none }, store)
  else
    match req.body with
    | none => ({ status := 500, error := some ("Upload failed"), id := none, expiresAt := none }, store)
    | some body =>
      match body.html with
      | none => ({ status := 400, error := some ("Missing html content"), id := none, expiresAt := none }, store)
      | some html =>
        if html = "" then
          ({ status := 400, error := some ("Missing html content"), id := none, expiresAt := none }, store)
        else
          match (if body.compressed then dec html else some html) with
          | none =>
            ({ status := 400, error := some ("Failed to decompress"), id := none, expiresAt := none }, store)
          | some finalHtml =>
            match parseExpiration nowMs toISO body.expiresIn with
            | .error _ =>
              ({ status := 500, error := some ("Upload failed"), id := none, expiresAt := none }, store)
            | .ok expiresAt =>
              let metadata : SnapshotMetadata :=
                { title := jsOr body.title ("Untitled")
                  sourceUrl := jsOr body.sourceUrl ""
                  createdAt := toISO nowMs
                  expiresAt := expiresAt }
              ({ status := 200, error := none, id := some id, expiresAt := expiresAt },
               fun k => if k = id then some { body := finalHtml, customMetadata := some metadata } else store k)

end CompressedWorker

/-! Definitions used by witnesses and counterexamples. -/

/-- Witness text encoder: code points as byte values. -/
def wEncode (s : String) : List Nat := s.data.map Char.toNat

/-- Witness text decoder, inverse of `wEncode`. -/
def wDecode (l : List Nat) : String := String.mk (l.map Char.ofNat)

/-- A cyclic sheet graph: every sheet is an `@import` of sheet 0, so the
graph of imports is a self-loop. -/
def cycEnv : StyleEnv :=
  { sheets := fun _ => { href := none, cssRules := some [{ isImport := true, styleSheet := some 0, cssText := "@import" }] }
    locationHref := "loc"
    fetchAsDataUrl := fun _ _ => none
    fetchText := fun _ => none }

/-- An html string one byte over the compressed worker's ceiling. -/
def bigHtml : String := String.mk (List.replicate (CompressedWorker.MAX_SIZE + 1) 'a')

/-- Metadata of a stored sample entry that expires at the date string `E`. -/
def sampleMeta : SnapshotMetadata :=
  { title := "t", sourceUrl := "", createdAt := "c", expiresAt := some "E" }

/-- A stored sample entry. -/
def sampleObject : StoredObject := { body := "doc", customMetadata := some sampleMeta }

/-- A store holding the sample entry under the id `a1`. -/
def sampleStore : SnapshotStore := fun k => if k = "a1" then some sampleObject else none

/-- A date parser mapping the sample expiration string to time 1. -/
def sampleParseDate : String → Option Int := fun s => if s = "E" then some 1 else none

/-- An upload body holding the oversized html, uncompressed. -/
def oversizedBody : UploadBody :=
  { html := some bigHtml, compressed := false, title := none, sourceUrl := none, expiresIn := none }

/-- An upload request with no Content-Length header and the oversized body. -/
def oversizedReq : UploadRequest := { contentLength := none, body := some oversizedBody }

/-- An upload body whose title field is present but empty. -/
def emptyTitleBody : UploadBody :=
  { html := some ("h"), compressed := false, title := some "", sourceUrl := none, expiresIn := none }

/-- The entry the plain worker stores for `emptyTitleBody` at time label T0. -/
def storedUntitled : StoredObject :=
  { body := "h", customMetadata := some { title := "Untitled", sourceUrl := "", createdAt := "T0", expiresAt := none } }

/-- A stored entry with fully populated metadata, as both workers build it. -/
def storedEntry (html title sourceUrl createdAt : String) (expiresAt : Option String) : StoredObject :=
  { body := html
    customMetadata := some
      { title := title, sourceUrl := sourceUrl, createdAt := createdAt, expiresAt := expiresAt } }

/-- An upload body whose expiration, 100,000,000 days, matches the grammar
but whose computed time value lies beyond the ECMAScript date range for any
positive current time. -/
def overflowBody : UploadBody :=
  { html := some ("h"), compressed := false, title := none, sourceUrl := none,
    expiresIn := some ("100000000d") }

/-- An upload request carrying the overflowing expiration. -/
def overflowReq : UploadRequest := { contentLength := none, body := some overflowBody }

/- ------------------------------------------------------------------ -/
/-! Theorems. -/

/-- The chunked binary-string construction is the identity on the byte
sequence: concatenating the 32768-wide chunks recovers the input. -/
theorem chunkConcat_id (l : List Nat) : chunkConcat l = l := by
  rw [chunkConcat]
  split
  · simp [*]
  · rw [chunkConcat_id (l.drop 32768)]
    exact List.take_append_drop _ l
termination_by l.length
decreasing_by
  simp only [List.length_drop]
  have := List.length_pos.mpr (by assumption)
  omega

/-- The base64 alphabet lookup inverts the alphabet indexing. -/
theorem b64index_b64char : ∀ k, k < 64 → b64index (b64char k) = some k := by decide

/-- No alphabet character is the padding character. -/
theorem b64char_ne_pad : ∀ k, k < 64 → ¬(b64char k = '=') := by decide

/-- Decoding inverts encoding on byte lists: `atob (btoa bytes) = bytes`. -/
theorem atob_b64encode : ∀ (bs : List Nat), (∀ b ∈ bs, b < 256) →
    atobChars (b64encodeGroups bs) = some bs
  | [], _ => rfl
  | [b0], h => by
    have hb0 : b0 < 256 := h b0 (by simp)
    simp only [b64encodeGroups, atobChars]
    rw [b64index_b64char _ (by omega), b64index_b64char _ (by omega)]
    simp
    omega
  | [b0, b1], h => by
    have hb0 : b0 < 256 := h b0 (by simp)
    have hb1 : b1 < 256 := h b1 (by simp)
    have hne : ¬(b64char (b1 % 16 * 4) = '=') := b64char_ne_pad _ (by omega)
    simp only [b64encodeGroups, atobChars]
    rw [b64index_b64char _ (by omega), b64index_b64char _ (by omega),
      b64index_b64char _ (by omega)]
    simp [hne]
    omega
  | b0 :: b1 :: b2 :: rest, h => by
    have hb0 : b0 < 256 := h b0 (by simp)
    have hb1 : b1 < 256 := h b1 (by simp)
    have hb2 : b2 < 256 := h b2 (by simp)
    have ih := atob_b64encode rest (fun b hb => h b (by simp [hb]))
    have hne2 : ¬(b64char (b1 % 16 * 4 + b2 / 64) = '=') := b64char_ne_pad _ (by omega)
    have hne3 : ¬(b64char (b2 % 64) = '=') := b64char_ne_pad _ (by omega)
    simp only [b64encodeGroups, atobChars]
    rw [b64index_b64char _ (by omega), b64index_b64char _ (by omega),
      b64index_b64char _ (by omega), b64index_b64char _ (by omega)]
    simp [hne2, hne3, ih]
    omega

/-- Unfolding of the string constructor's character list. -/
theorem data_mk (l : List Char) : (String.mk l).data = l := rfl

/-- C5: for every string `x`, decompressing the compressed transport form
recovers `x` exactly: `decompressHtml (compressString x) = x`, where
`compressString` gzips the UTF-8 encoding of `x` and base64-encodes the
bytes through the chunked binary-string construction, and `decompressHtml`
reverses both steps. The platform codecs enter as hypotheses: gunzip
inverts gzip on this input, the gzip output consists of bytes, and the text
decoder inverts the text encoder on this input. -/
theorem compress_decompress_roundtrip
    (textEncode : String → List Nat) (textDecode : List Nat → String)
    (gzip gunzip : List Nat → List Nat) (str : String)
    (hcodec : gunzip (gzip (textEncode str)) = textEncode str)
    (hbytes : ∀ b ∈ gzip (textEncode str), b < 256)
    (htext : textDecode (textEncode str) = str) :
    decompressHtml gunzip textDecode (compressString textEncode gzip str) = some str := by
  simp only [compressString, decompressHtml, b64encode, atob, chunkConcat_id, data_mk]
  rw [atob_b64encode _ hbytes]
  simp [hcodec, htext]

/-- C5 witness: the round trip evaluated with identity codecs on a concrete
string. -/
theorem compress_decompress_roundtrip_witness :
    decompressHtml id wDecode (compressString wEncode id ("hi")) = some ("hi") :=
  compress_decompress_roundtrip wEncode wDecode id id ("hi") rfl (by decide) (by decide)

/-- C2 counterexample: the claim "every reference whose fetch fails keeps its
original text exactly" is false. In `url(v) url(xurl(v)` the second
reference's captured URL `xurl(v` fails to fetch, yet the substitution
performed for the successful URL `v` (plain-string replacement of `url(v)`)
also rewrites the inside of the failed reference: its text `url(xurl(v)`
occurs in the input but no longer occurs in the output. -/
theorem processCssUrls_failed_reference_rewritten :
    cssMatchAll ("url(v) url(xurl(v)").data = ["v", "xurl(v"] ∧
    (fun u (_ : String) => if u = "v" then some ("data:img") else none) ("xurl(v") ("b") = none ∧
    occursIn ("url(xurl(v)").data ("url(v) url(xurl(v)").data = true ∧
    occursIn ("url(xurl(v)").data
      (processCssUrls ("url(v) url(xurl(v)") ("b")
        (fun u _ => if u = "v" then some ("data:img") else none)).data = false := by
  decide

/-- C2 (amended): a failed reference is never itself a substitution target —
substitutions are performed only for URLs whose fetch succeeded — so when no
referenced URL resolves the output is byte-identical to the input. (A failed
reference's text can still change as collateral damage when a successful
URL's substitution pattern occurs inside it, as the counterexample shows.) -/
theorem processCssUrls_failed_not_rewritten (cssText baseUrl : String)
    (fetchFn : String → String → Option String)
    (h : ∀ u ∈ cssUniqueUrls cssText, fetchFn u baseUrl = none) :
    processCssUrls cssText baseUrl fetchFn = cssText := by
  have hmap : (cssUniqueUrls cssText).filterMap
      (fun u => (fetchFn u baseUrl).map (fun d => (u, d))) = [] := by
    rw [List.filterMap_eq_nil_iff]
    intro u hu
    rw [h u hu]
    rfl
  simp only [processCssUrls, hmap, List.foldl_nil, ite_self]

/-- C2 witness: a style text whose single reference fails to fetch is
returned unchanged. -/
theorem processCssUrls_failed_not_rewritten_witness :
    processCssUrls ("url(a)") ("base") (fun _ _ => none) = "url(a)" :=
  processCssUrls_failed_not_rewritten ("url(a)") ("base") (fun _ _ => none)
    (fun _ _ => rfl)

/-- C3: `processStyleSheet` terminates on every sheet graph, including
cyclic ones: it is a total function (here over an arbitrary, possibly
cyclic, indexed sheet graph) that returns the empty string as soon as
`depth > 5`, and for `depth ≤ 5` satisfies exactly the source's recursion —
each `@import` rule with a live target recurses at `depth + 1`, every other
rule contributes its `cssText` plus a newline, the collected text runs
through `processCssUrls`, and a sheet whose rules are unreadable falls back
to fetching its own href (or contributes the empty string). -/
theorem processStyleSheet_depth_bound (env : StyleEnv) (sid depth : Nat) :
    (depth > 5 → processStyleSheet env sid depth = "") ∧
    (depth ≤ 5 → processStyleSheet env sid depth =
      (let sheet := env.sheets sid
       let baseUrl := jsOr sheet.href env.locationHref
       match sheet.cssRules with
       | some rules =>
         processCssUrls
           (rulesTextF (fun sid₂ => processStyleSheet env sid₂ (depth + 1)) rules)
           baseUrl env.fetchAsDataUrl
       | none =>
         match sheet.href with
         | some href =>
           if href = "" then ""
           else
             match env.fetchText href with
             | some txt => processCssUrls txt href env.fetchAsDataUrl
             | none => ""
         | none => "")) := by
  constructor
  · intro h
    unfold processStyleSheet
    rw [show 6 - depth = 0 from by omega]
    rfl
  · intro h
    unfold processStyleSheet
    simp only [show 6 - (depth + 1) = 5 - depth from by omega]
    rw [show 6 - depth = (5 - depth) + 1 from by omega]
    simp only [processStyleSheetF]

/-- C3 witness: on a self-importing (cyclic) sheet graph, a sheet reached
beyond the depth bound contributes the empty string. -/
theorem processStyleSheet_depth_bound_witness :
    processStyleSheet cycEnv 0 6 = "" :=
  (processStyleSheet_depth_bound cycEnv 0 6).1 (by decide)

/-- C4 counterexample: "in every other case it returns an inline data-URL
string" is false. Here the URL resolves, the resolved URL is not inline
data, the fetch does not throw, the response is successful and its body is
non-empty — none of the claim's four Unavailable conditions — yet the
function returns `null`, because reading the blob with `FileReader` fails
and `reader.onerror` resolves the promise with `null`. -/
theorem fetchAsDataUrl_blob_read_failure :
    (fun (u : String) (_ : String) => some u) ("abs") (jsOr none ("loc")) = some ("abs") ∧
    jsStartsWith ("abs") ("data:") = false ∧
    (fun (_ : String) => FetchOutcome.resp true 1 none) ("abs") = FetchOutcome.resp true 1 none ∧
    fetchAsDataUrl (fun u _ => some u) (fun _ => FetchOutcome.resp true 1 none)
      ("loc") ("abs") none = none := by
  decide

/-- C4 (amended): `fetchAsDataUrl` is total and never lets an error escape.
It returns `none` when the URL is malformed (and then for every network
function, i.e. with no network call), when the fetch throws (network/CORS
error or timeout abort), when the response is non-success, when the body is
zero-length, or when the blob-to-data-URL read fails; a resolved URL already
in data form is returned unchanged; in every remaining case it returns the
data URL produced by the reader. -/
theorem fetchAsDataUrl_outcomes (resolveURL : String → String → Option String)
    (net : String → FetchOutcome) (locationHref url : String) (baseUrl : Option String) :
    (resolveURL url (jsOr baseUrl locationHref) = none →
      (∀ net₂, fetchAsDataUrl resolveURL net₂ locationHref url baseUrl = none)) ∧
    (∀ absoluteUrl, resolveURL url (jsOr baseUrl locationHref) = some absoluteUrl →
      (jsStartsWith absoluteUrl ("data:") = true →
        fetchAsDataUrl resolveURL net locationHref url baseUrl = some absoluteUrl) ∧
      (jsStartsWith absoluteUrl ("data:") = false →
        (net absoluteUrl = .threw →
          fetchAsDataUrl resolveURL net locationHref url baseUrl = none) ∧
        (∀ ok blobSize blobDataUrl, net absoluteUrl = .resp ok blobSize blobDataUrl →
          (ok = false → fetchAsDataUrl resolveURL net locationHref url baseUrl = none) ∧
          (ok = true → blobSize = 0 →
            fetchAsDataUrl resolveURL net locationHref url baseUrl = none) ∧
          (ok = true → blobSize ≠ 0 →
            fetchAsDataUrl resolveURL net locationHref url baseUrl = blobDataUrl)))) := by
  refine ⟨?_, ?_⟩
  · intro h net₂
    unfold fetchAsDataUrl
    rw [h]
  · intro absoluteUrl habs
    refine ⟨?_, ?_⟩
    · intro hdata
      unfold fetchAsDataUrl
      rw [habs]
      simp [hdata]
    · intro hdata
      refine ⟨?_, ?_⟩
      · intro hthrew
        unfold fetchAsDataUrl
        rw [habs]
        simp [hdata, hthrew]
      · intro ok blobSize blobDataUrl hresp
        refine ⟨?_, ?_, ?_⟩
        · intro hok
          unfold fetchAsDataUrl
          rw [habs]
          simp [hdata, hresp, hok]
        · intro hok hsz
          unfold fetchAsDataUrl
          rw [habs]
          simp [hdata, hresp, hok, hsz]
        · intro hok hsz
          unfold fetchAsDataUrl
          rw [habs]
          simp [hdata, hresp, hok, hsz]

/-- C4 witness: a malformed URL yields Unavailable under any network. -/
theorem fetchAsDataUrl_outcomes_witness :
    fetchAsDataUrl (fun _ _ => none) (fun _ => FetchOutcome.threw) ("loc") ("u") none = none :=
  (fetchAsDataUrl_outcomes (fun _ _ => none) (fun _ => FetchOutcome.threw)
    ("loc") ("u") none).1 rfl (fun _ => FetchOutcome.threw)

/-- A JavaScript `||`-default is non-empty whenever the default is. -/
theorem jsOr_ne_empty (m : Option String) (d : String) (hd : d ≠ "") : jsOr m d ≠ "" := by
  cases m with
  | none => simpa [jsOr]
  | some s =>
    by_cases hs : s = "" <;> simp [jsOr, hs, hd]

/-- C1: every `capturePageSnapshot` invocation returns a result in which
failure carries a non-empty error and no html, and success carries a
complete document string prefixed with the DOCTYPE declaration and no error
field. -/
theorem capturePageSnapshot_result_contract (o : PipelineOutcome) :
    ((capturePageSnapshot o).success = false →
      (capturePageSnapshot o).html = none ∧
      ∃ e, (capturePageSnapshot o).error = some e ∧ e ≠ "") ∧
    ((capturePageSnapshot o).success = true →
      (capturePageSnapshot o).error = none ∧
      ∃ d, (capturePageSnapshot o).html = some ("<!DOCTYPE html>\n" ++ d)) := by
  cases o with
  | ok docHtml title sourceUrl =>
    exact ⟨fun h => by simp [capturePageSnapshot] at h, fun _ => ⟨rfl, docHtml, rfl⟩⟩
  | err message =>
    exact ⟨fun _ => ⟨rfl, jsOr message ("Capture failed"), rfl,
        jsOr_ne_empty message _ (by decide)⟩,
      fun h => by simp [capturePageSnapshot] at h⟩

/-- C1 witness: a caught exception with no message yields a failure result
with no html and the non-empty default error message. -/
theorem capturePageSnapshot_result_contract_witness :
    (capturePageSnapshot (PipelineOutcome.err none)).html = none ∧
    ∃ e, (capturePageSnapshot (PipelineOutcome.err none)).error = some e ∧ e ≠ "" :=
  (capturePageSnapshot_result_contract (PipelineOutcome.err none)).1 rfl

mutual

/-- After the script-removal pass no script or noscript element remains. -/
theorem noScript_of_removeElem : ∀ (e : Element) (e₂ : Element),
    removeScriptElements e = some e₂ → noScriptElements e₂ = true
  | .mk tag attrs children, e₂, h => by
    rw [removeScriptElements] at h
    by_cases htag : tag = "script" ∨ tag = "noscript"
    · rw [if_pos htag] at h
      exact absurd h (by simp)
    · rw [if_neg htag] at h
      injection h with h₂
      subst h₂
      simp only [noScriptElements]
      rw [noScriptList_of_removeList children]
      push_neg at htag
      simp [htag.1, htag.2]

/-- List version of `noScript_of_removeElem`. -/
theorem noScriptList_of_removeList : ∀ (es : List Element),
    noScriptElementsList (removeScriptElementsList es) = true
  | [] => rfl
  | e :: es => by
    rw [removeScriptElementsList]
    cases he : removeScriptElements e with
    | none => exact noScriptList_of_removeList es
    | some e₂ =>
      rw [noScriptElementsList, noScript_of_removeElem e e₂ he,
        noScriptList_of_removeList es]
      rfl

end

mutual

/-- The attribute pass leaves no dangerous attribute anywhere. -/
theorem noDanger_of_strip : ∀ (e : Element), noDangerousAttrs (stripDangerousAttrs e) = true
  | .mk tag attrs children => by
    simp only [stripDangerousAttrs, noDangerousAttrs]
    have hall : (attrs.filter (fun a => !(isDangerousAttr a.1 a.2))).all
        (fun a => !(isDangerousAttr a.1 a.2)) = true := by
      rw [List.all_eq_true]
      intro a ha
      exact (List.mem_filter.mp ha).2
    rw [hall, noDangerList_of_stripList children]
    rfl

/-- List version of `noDanger_of_strip`. -/
theorem noDangerList_of_stripList : ∀ (es : List Element),
    noDangerousAttrsList (stripDangerousAttrsList es) = true
  | [] => rfl
  | e :: es => by
    rw [stripDangerousAttrsList, noDangerousAttrsList, noDanger_of_strip e,
      noDangerList_of_stripList es]
    rfl

end

mutual

/-- The attribute pass does not change which tags occur. -/
theorem noScript_strip : ∀ (e : Element),
    noScriptElements (stripDangerousAttrs e) = noScriptElements e
  | .mk tag attrs children => by
    simp only [stripDangerousAttrs, noScriptElements]
    rw [noScriptList_strip children]

/-- List version of `noScript_strip`. -/
theorem noScriptList_strip : ∀ (es : List Element),
    noScriptElementsList (stripDangerousAttrsList es) = noScriptElementsList es
  | [] => rfl
  | e :: es => by
    simp only [stripDangerousAttrsList, noScriptElementsList]
    rw [noScript_strip e, noScriptList_strip es]

end

/-- C6: after `removeScripts` runs, the document contains no script or
noscript element, no element carries an attribute whose name begins with
the `on` event-handler prefix, and no `href` attribute value begins with the
`javascript:` scheme (the two conditions of `noDangerousAttrs`). -/
theorem removeScripts_sanitizes (doc doc₂ : Element)
    (h : removeScripts doc = some doc₂) :
    noScriptElements doc₂ = true ∧ noDangerousAttrs doc₂ = true := by
  unfold removeScripts at h
  cases hr : removeScriptElements doc with
  | none => rw [hr] at h; exact absurd h (by simp)
  | some e₁ =>
    rw [hr] at h
    simp only [Option.map_some'] at h
    injection h with h₂
    subst h₂
    exact ⟨by rw [noScript_strip e₁]; exact noScript_of_removeElem doc e₁ hr,
      noDanger_of_strip e₁⟩

/-- C6 witness: sanitizing a concrete document with a script child, an
event-handler attribute and a javascript-scheme link. -/
theorem removeScripts_sanitizes_witness :
    noScriptElements (Element.mk ("html") [("id", "z")] [Element.mk ("div") [] []]) = true ∧
    noDangerousAttrs (Element.mk ("html") [("id", "z")] [Element.mk ("div") [] []]) = true :=
  removeScripts_sanitizes
    (Element.mk ("html") [("onclick", "x"), ("href", "javascript:y"), ("id", "z")]
      [Element.mk ("script") [] [], Element.mk ("div") [("onmouseover", "w")] []])
    (Element.mk ("html") [("id", "z")] [Element.mk ("div") [] []])
    (by rfl)

/-- C7: `GET /id` semantics. No entry under the id answers 404. An entry
whose stored expiration is truthy, parses, and lies before `now` answers 410
and is deleted by that read, so any subsequent GET of the same id answers
404. Otherwise the response is 200 carrying the stored document content and
the store is unchanged. -/
theorem handleServe_contract (parseDate : String → Option Int) (now : Int)
    (store : SnapshotStore) (id : String) :
    (store id = none →
      handleServe parseDate now store id =
        ({ status := 404, body := "Snapshot not found" }, store)) ∧
    (∀ object metadata s t, store id = some object →
      object.customMetadata = some metadata →
      metadata.expiresAt = some s → s ≠ "" →
      parseDate s = some t → t < now →
      (handleServe parseDate now store id).1.status = 410 ∧
      (handleServe parseDate now store id).2 id = none ∧
      (∀ now₂,
        (handleServe parseDate now₂ (handleServe parseDate now store id).2 id).1.status = 404)) ∧
    (∀ object, store id = some object →
      ¬(∃ metadata s t, object.customMetadata = some metadata ∧ metadata.expiresAt = some s ∧
          s ≠ "" ∧ parseDate s = some t ∧ t < now) →
      handleServe parseDate now store id = ({ status := 200, body := object.body }, store)) := by
  refine ⟨?_, ?_, ?_⟩
  · intro h
    unfold handleServe
    rw [h]
  · intro object metadata s t hobj hmd hexp hs hpd hlt
    have hserve : handleServe parseDate now store id =
        ({ status := 410, body := "Snapshot has expired" },
         fun k => if k = id then none else store k) := by
      unfold handleServe
      simp only [hobj, hmd, hexp]
      rw [if_neg hs,
        if_pos (show dateLt parseDate s now = true by
          unfold dateLt
          rw [hpd]
          exact decide_eq_true hlt)]
    refine ⟨by rw [hserve], by rw [hserve]; simp, ?_⟩
    intro now₂
    rw [hserve]
    unfold handleServe
    simp
  · intro object hobj hne
    unfold handleServe
    simp only [hobj]
    cases hmd : object.customMetadata with
    | none => simp [hmd]
    | some metadata =>
      simp only [hmd]
      cases hexp : metadata.expiresAt with
      | none => simp [hexp]
      | some s =>
        simp only [hexp]
        by_cases hs : s = ""
        · rw [if_pos hs]
        · rw [if_neg hs]
          have hdl : dateLt parseDate s now = false := by
            unfold dateLt
            cases hpd : parseDate s with
            | none => rfl
            | some t =>
              by_cases hlt : t < now
              · exact absurd ⟨metadata, s, t, hmd, hexp, hs, hpd, hlt⟩ hne
              · simp [hlt]
          simp [hdl]

/-- C7 witness: fetching a concrete expired entry answers 410. -/
theorem handleServe_contract_witness :
    (handleServe sampleParseDate 5 sampleStore ("a1")).1.status = 410 :=
  ((handleServe_contract sampleParseDate 5 sampleStore ("a1")).2.1
    sampleObject sampleMeta ("E") 1 (by decide) rfl rfl (by decide) (by decide)
    (by decide)).1

/-- C8 counterexample: the claim "when expiresIn matches the grammar, it
returns the ISO timestamp of now plus value times the unit's duration" is
false. `100000000d` matches the grammar, yet at a realistic current time
the computed time value exceeds the ECMAScript date range, so
`toISOString()` throws a RangeError instead of returning a timestamp, and
the upload handler's catch answers 500 with nothing stored. -/
theorem parseExpiration_range_overflow :
    expMatch ("100000000d").data = some (100000000, 'd') ∧
    parseExpiration 1700000000000 (fun _ => "iso") (some ("100000000d")) = Except.error () ∧
    (CompressedWorker.handleUpload 1700000000000 (fun _ => "iso") (fun _ => none) ("id1")
      (fun _ => none : SnapshotStore) overflowReq).1.status = 500 ∧
    ((CompressedWorker.handleUpload 1700000000000 (fun _ => "iso") (fun _ => none) ("id1")
      (fun _ => none : SnapshotStore) overflowReq).2 ("id1")) = none :=
  ⟨rfl, rfl, rfl, rfl⟩

/-- C8 (amended): `parseExpiration` yields `null` exactly when the input is
absent, empty (falsy), `"never"`, or fails the anchored `<digits><unit>`
grammar; on a grammar match it returns the ISO rendering of now plus value
times the unit's duration in milliseconds when that time value lies within
the ECMAScript date range, and otherwise `toISOString()` throws a
RangeError (which the upload handler surfaces as 500). An upload whose body
omits `expiresIn` carries `expiresAt = null` in its response. -/
theorem parseExpiration_contract (nowMs : Int) (toISO : Int → String) (e : Option String) :
    (parseExpiration nowMs toISO e = Except.ok none ↔
      (e = none ∨ e = some "" ∨ e = some ("never") ∨
        ∃ s, e = some s ∧ expMatch s.data = none)) ∧
    (∀ s value unit, e = some s → s ≠ "" → s ≠ "never" →
      expMatch s.data = some (value, unit) →
      ((nowMs + (value : Int) * (multipliers unit : Int)).natAbs ≤ MAX_TIME_VALUE →
        parseExpiration nowMs toISO e =
          Except.ok (some (toISO (nowMs + (value : Int) * (multipliers unit : Int))))) ∧
      ((nowMs + (value : Int) * (multipliers unit : Int)).natAbs > MAX_TIME_VALUE →
        parseExpiration nowMs toISO e = Except.error ())) ∧
    (∀ (store : SnapshotStore) req body id, req.body = some body → body.expiresIn = none →
      (CompressedWorker.handleUpload nowMs toISO (fun _ => none) id store req).1.expiresAt = none) := by
  refine ⟨⟨?_, ?_⟩, ?_, ?_⟩
  · intro h
    cases e with
    | none => exact Or.inl rfl
    | some s =>
      by_cases hs : s = "" ∨ s = "never"
      · cases hs with
        | inl h₁ => exact Or.inr (Or.inl (by rw [h₁]))
        | inr h₂ => exact Or.inr (Or.inr (Or.inl (by rw [h₂])))
      · refine Or.inr (Or.inr (Or.inr ⟨s, rfl, ?_⟩))
        simp only [parseExpiration] at h
        rw [if_neg hs] at h
        cases hm : expMatch s.data with
        | none => rfl
        | some p =>
          cases p with
          | mk value unit =>
            rw [hm] at h
            by_cases hr : (nowMs + (value : Int) * (multipliers unit : Int)).natAbs ≤ MAX_TIME_VALUE
            · simp [hr] at h
            · simp [hr] at h
  · intro h
    rcases h with h | h | h | ⟨s, hes, hm⟩
    · rw [h]
      rfl
    · rw [h]
      simp [parseExpiration]
    · rw [h]
      simp [parseExpiration]
    · rw [hes]
      simp only [parseExpiration]
      by_cases hs : s = "" ∨ s = "never"
      · rw [if_pos hs]
      · rw [if_neg hs]
        simp only [hm]
  · intro s value unit hes hs₁ hs₂ hm
    rw [hes]
    simp only [parseExpiration]
    rw [if_neg (by rintro (h | h); exacts [hs₁ h, hs₂ h])]
    simp only [hm]
    refine ⟨fun hle => ?_, fun hgt => ?_⟩
    · simp [hle]
    · have hnle : ¬((nowMs + (value : Int) * (multipliers unit : Int)).natAbs ≤ MAX_TIME_VALUE) := by
        omega
      simp [hnle]
  · intro store req body id hb he
    unfold CompressedWorker.handleUpload
    split
    · rfl
    · simp only [hb]
      cases hh : body.html with
      | none => simp [hh]
      | some html =>
        simp only [hh]
        by_cases hemp : html = ""
        · simp [hemp]
        · rw [if_neg hemp]
          cases hcomp : body.compressed with
          | true => simp [hcomp]
          | false => simp [hcomp, he, parseExpiration]

/-- C8 witness: a concrete in-range grammar match, `2h`, adds two hours of
milliseconds to now. -/
theorem parseExpiration_contract_witness :
    parseExpiration 1000 (fun t => toString t) (some ("2h")) =
      Except.ok (some (toString (7201000 : Int))) := by
  have h := ((parseExpiration_contract 1000 (fun t => toString t) (some ("2h"))).2.1
    ("2h") 2 'h' rfl (by decide) (by decide) (by decide)).1 (by decide)
  simpa [multipliers] using h

/-- UTF-8 length of a character-repetition string. -/
theorem utf8Len_replicate (n : Nat) (c : Char) :
    utf8Len (String.mk (List.replicate n c)) = n * utf8CharLen c := by
  simp [utf8Len, data_mk, List.map_replicate, List.sum_replicate, smul_eq_mul]

/-- The oversized html is not empty. -/
theorem bigHtml_ne_empty : bigHtml ≠ "" := by
  unfold bigHtml
  intro h
  have hdata : List.replicate (CompressedWorker.MAX_SIZE + 1) 'a' = ("").data := by
    rw [← data_mk (List.replicate (CompressedWorker.MAX_SIZE + 1) 'a'), h]
  simp [List.replicate_eq_nil_iff] at hdata

/-- C9 counterexample: the compressed-transport worker never checks the
actual body size. An upload request without a Content-Length header whose
html field exceeds the ceiling is accepted with 200 and stored, instead of
being rejected with 413. -/
theorem handleUpload_oversized_stored :
    utf8Len bigHtml > CompressedWorker.MAX_SIZE ∧
    (CompressedWorker.handleUpload 0 (fun _ => "now") (fun _ => none) ("id1")
      (fun _ => none) oversizedReq).1.status = 200 ∧
    ((CompressedWorker.handleUpload 0 (fun _ => "now") (fun _ => none) ("id1")
      (fun _ => none) oversizedReq).2 ("id1")).isSome = true := by
  have hlen : utf8Len bigHtml > CompressedWorker.MAX_SIZE := by
    unfold bigHtml
    rw [utf8Len_replicate]
    simp [utf8CharLen]
  refine ⟨hlen, ?_, ?_⟩ <;>
    simp [CompressedWorker.handleUpload, oversizedReq, oversizedBody, bigHtml_ne_empty,
      parseExpiration]

/-- C9 (amended): in both workers a declared Content-Length over the ceiling
is rejected with 413 and nothing is stored; the plain worker additionally
rejects an html field whose encoded size exceeds its ceiling (413, nothing
stored). The compressed-transport worker performs no actual-size check, as
the counterexample shows. -/
theorem handleUpload_size_rejections (nowMs : Int) (toISO : Int → String)
    (dec : String → Option String) (id : String) (store : SnapshotStore) (req : UploadRequest) :
    (∀ n, req.contentLength = some n → n > PlainWorker.MAX_SIZE →
      PlainWorker.handleUpload nowMs toISO id store req =
        ({ status := 413, error := some ("Content too large"), id := none, expiresAt := none },
         store)) ∧
    (∀ n, req.contentLength = some n → n > CompressedWorker.MAX_SIZE →
      CompressedWorker.handleUpload nowMs toISO dec id store req =
        ({ status := 413, error := some ("Content too large"), id := none, expiresAt := none },
         store)) ∧
    (∀ body html, req.body = some body → body.html = some html → html ≠ "" →
      utf8Len html > PlainWorker.MAX_SIZE →
      PlainWorker.handleUpload nowMs toISO id store req =
        ({ status := 413, error := some ("Content too large"), id := none, expiresAt := none },
         store)) := by
  refine ⟨?_, ?_, ?_⟩
  · intro n hcl hgt
    simp [PlainWorker.handleUpload, hcl, hgt]
  · intro n hcl hgt
    simp [CompressedWorker.handleUpload, hcl, hgt]
  · intro body html hb hh hne hsz
    unfold PlainWorker.handleUpload
    split
    · rfl
    · simp only [hb, hh]
      rw [if_neg hne, if_pos hsz]

/-- C9 witness: a declared size one over the plain ceiling is rejected and
the store is unchanged. -/
theorem handleUpload_size_rejections_witness :
    PlainWorker.handleUpload 0 (fun _ => "now") ("id1") (fun _ => none : SnapshotStore)
      { contentLength := some (PlainWorker.MAX_SIZE + 1), body := none } =
      ({ status := 413, error := some ("Content too large"), id := none, expiresAt := none },
       (fun _ => none : SnapshotStore)) :=
  (handleUpload_size_rejections 0 (fun _ => "now") (fun _ => none) ("id1")
    (fun _ => none : SnapshotStore)
    { contentLength := some (PlainWorker.MAX_SIZE + 1), body := none }).1
    (PlainWorker.MAX_SIZE + 1) rfl (by decide)

/-- C10 counterexample: a title that is present but empty is not stored as
the request's title — the falsy default replaces it with Untitled. -/
theorem handleUpload_blank_title_default :
    ((PlainWorker.handleUpload 0 (fun _ => "T0") ("id1") (fun _ => none : SnapshotStore)
        { contentLength := none, body := some emptyTitleBody }).2 ("id1")) =
      some storedUntitled ∧
    emptyTitleBody.title = some "" ∧
    storedUntitled.customMetadata = some
      { title := "Untitled", sourceUrl := "", createdAt := "T0", expiresAt := none } := by
  refine ⟨?_, rfl, rfl⟩
  decide

/-- C10 (amended): every upload either worker accepts (status 200) stores an
entry under the fresh id whose metadata is fully populated: the title is the
request's title unless that is absent or empty (then Untitled), the source
URL is the request's or empty, createdAt is the upload time rendered to ISO
form, and expiresAt is `parseExpiration` of the request's expiresIn. -/
theorem handleUpload_stored_metadata (nowMs : Int) (toISO : Int → String)
    (dec : String → Option String) (id : String) (store : SnapshotStore)
    (req : UploadRequest) (body : UploadBody) (hb : req.body = some body) :
    ((PlainWorker.handleUpload nowMs toISO id store req).1.status = 200 →
      ∃ html expiresAt, parseExpiration nowMs toISO body.expiresIn = Except.ok expiresAt ∧
        (PlainWorker.handleUpload nowMs toISO id store req).2 id =
          some (storedEntry html (jsOr body.title ("Untitled")) (jsOr body.sourceUrl "")
            (toISO nowMs) expiresAt)) ∧
    ((CompressedWorker.handleUpload nowMs toISO dec id store req).1.status = 200 →
      ∃ html expiresAt, parseExpiration nowMs toISO body.expiresIn = Except.ok expiresAt ∧
        (CompressedWorker.handleUpload nowMs toISO dec id store req).2 id =
          some (storedEntry html (jsOr body.title ("Untitled")) (jsOr body.sourceUrl "")
            (toISO nowMs) expiresAt)) := by
  constructor
  · unfold PlainWorker.handleUpload
    split
    · intro h
      simp at h
    · simp only [hb]
      cases hh : body.html with
      | none =>
        intro h
        simp at h
      | some html =>
        dsimp only
        by_cases hemp : html = ""
        · simp only [hemp]
          intro h
          simp at h
        · rw [if_neg hemp]
          by_cases hsz : utf8Len html > PlainWorker.MAX_SIZE
          · rw [if_pos hsz]
            intro h
            simp at h
          · rw [if_neg hsz]
            cases hpe : parseExpiration nowMs toISO body.expiresIn with
            | error err =>
              intro h
              simp at h
            | ok expiresAt =>
              intro _
              exact ⟨html, expiresAt, rfl, by simp [storedEntry]⟩
  · unfold CompressedWorker.handleUpload
    split
    · intro h
      simp at h
    · simp only [hb]
      cases hh : body.html with
      | none =>
        intro h
        simp at h
      | some html =>
        dsimp only
        by_cases hemp : html = ""
        · simp only [hemp]
          intro h
          simp at h
        · rw [if_neg hemp]
          cases hcomp : body.compressed with
          | false =>
            simp only [hcomp, if_neg (by simp : ¬(false = true))]
            cases hpe : parseExpiration nowMs toISO body.expiresIn with
            | error err =>
              intro h
              simp at h
            | ok expiresAt =>
              intro _
              exact ⟨html, expiresAt, rfl, by simp [storedEntry]⟩
          | true =>
            simp only [hcomp, if_pos rfl]
            cases hdec : dec html with
            | none =>
              intro h
              simp at h
            | some finalHtml =>
              cases hpe : parseExpiration nowMs toISO body.expiresIn with
              | error err =>
                intro h
                simp at h
              | ok expiresAt =>
                intro _
                exact ⟨finalHtml, expiresAt, rfl, by simp [storedEntry]⟩

/-- C10 witness: a concrete accepted upload stores fully populated
metadata. -/
theorem handleUpload_stored_metadata_witness :
    ∃ html expiresAt,
      parseExpiration 0 (fun _ => "T0") emptyTitleBody.expiresIn = Except.ok expiresAt ∧
      (PlainWorker.handleUpload 0 (fun _ => "T0") ("id1") (fun _ => none : SnapshotStore)
        { contentLength := none, body := some emptyTitleBody }).2 ("id1") =
        some (storedEntry html (jsOr emptyTitleBody.title ("Untitled"))
          (jsOr emptyTitleBody.sourceUrl "") ("T0") expiresAt) :=
  (handleUpload_stored_metadata 0 (fun _ => "T0") (fun _ => none) ("id1")
    (fun _ => none : SnapshotStore)
    { contentLength := none, body := some emptyTitleBody } emptyTitleBody rfl).1 (by decide)

end StillCapture
